import Mathlib

/-!
Verification development for the raster post-processing core of the
`pa-aa-tools` repository (file `src/aatoolbox/utils/raster.py` and the
ensemble assembly in `src/aatoolbox/datasources/glofas/forecast.py`).

Each Python operation is shallowly embedded as an executable Lean
function over explicit list-based rasters; machine floats do not occur
in the verified fragments (coordinates are integers in the source's own
doctests, cell values are rationals with `none` standing for NaN).
Python `%` on integers with a positive modulus agrees with Lean's `%`
on `Int` (both return a value in `[0, modulus)`), so `%` is used
directly.
-/

/-! ## Longitude-range conversion (`AatRasterMixin.change_longitude_range`)

The raster is shown along its longitude axis: `lon` is the coordinate
sequence and `vals` the cell values at the corresponding positions (all
other axes are untouched by the operation and elided).  The source reads

    data_obj[self.x_dim] = np.sort(((data_obj[self.x_dim] + 180) % 360) - 180)

i.e. it assigns the sorted, transformed coordinate values back onto the
longitude coordinate.  In xarray such an assignment replaces the labels
positionally; the data is *not* reindexed, so `vals` is unchanged.
-/

structure LonRaster where
  lon : List ℤ
  vals : List ℤ
deriving DecidableEq, Repr

/-- The map `v ↦ ((v + 180) % 360) - 180` applied by the `lon_max > 180`
branch.  Lean's `%` on `Int` matches numpy's `%` for the positive
modulus `360`. -/
def pyMap180 (v : ℤ) : ℤ := ((v + 180) % 360) - 180

/-- The map `np.where(lon < 0, lon + 360, lon)` applied by the
`lon_min < 0` branch. -/
def wrapNeg (v : ℤ) : ℤ := if v < 0 then v + 360 else v

/-- `np.sort` on a one-dimensional integer array. -/
def sortInt (l : List ℤ) : List ℤ := List.insertionSort (fun a b => a ≤ b) l

/-- Embedding of `AatRasterMixin.change_longitude_range` (copy mode).
`lon_max > 180` and `lon_min < 0` are the pandas index max/min; on an
empty index both comparisons are falsy (NaN), which `WithBot`/`WithTop`
reproduce.  Only the coordinate labels are replaced; the data stays in
positional order, exactly as the assignment in the source does. -/
def change_longitude_range (r : LonRaster) : LonRaster :=
  if ((180 : ℤ) : WithBot ℤ) < r.lon.maximum then
    { r with lon := sortInt (r.lon.map pyMap180) }
  else if r.lon.minimum < ((0 : ℤ) : WithTop ℤ) then
    { r with lon := sortInt (r.lon.map wrapNeg) }
  else r

theorem lt_maximum_iff (l : List ℤ) (c : ℤ) :
    ((c : ℤ) : WithBot ℤ) < l.maximum ↔ ∃ v ∈ l, c < v := by
  constructor
  · intro h
    cases hm : l.maximum with
    | bot => rw [hm] at h; exact absurd h (by simp)
    | coe m =>
      refine ⟨m, List.maximum_mem hm, ?_⟩
      rw [hm] at h
      exact_mod_cast h
  · rintro ⟨v, hv, hcv⟩
    exact lt_of_lt_of_le (by exact_mod_cast hcv) (List.le_maximum_of_mem' hv)

theorem minimum_lt_iff (l : List ℤ) (c : ℤ) :
    l.minimum < ((c : ℤ) : WithTop ℤ) ↔ ∃ v ∈ l, v < c := by
  constructor
  · intro h
    cases hm : l.minimum with
    | top => rw [hm] at h; exact absurd h (by simp)
    | coe m =>
      refine ⟨m, List.minimum_mem hm, ?_⟩
      rw [hm] at h
      exact_mod_cast h
  · rintro ⟨v, hv, hcv⟩
    exact lt_of_le_of_lt (List.minimum_le_of_mem' hv) (by exact_mod_cast hcv)

theorem pyMap180_wrapNeg_id {v : ℤ} (h1 : -180 < v) (h2 : v < 180) :
    pyMap180 (wrapNeg v) = v := by
  simp only [pyMap180, wrapNeg]
  split <;> omega

theorem wrapNeg_pyMap180_id {v : ℤ} (h1 : 0 ≤ v) (h2 : v < 360) :
    wrapNeg (pyMap180 v) = v := by
  simp only [pyMap180, wrapNeg]
  split <;> omega

theorem wrapNeg_gt_180 {v : ℤ} (h1 : -180 < v) (h2 : v < 0) : 180 < wrapNeg v := by
  simp only [wrapNeg]
  split <;> omega

theorem pyMap180_lt_180 {v : ℤ} (h1 : 0 ≤ v) (h2 : v < 360) : pyMap180 v < 180 := by
  simp only [pyMap180]
  omega

theorem pyMap180_neg {v : ℤ} (h1 : 180 < v) (h2 : v < 360) : pyMap180 v < 0 := by
  simp only [pyMap180]
  omega

theorem sortInt_perm (l : List ℤ) : List.Perm (sortInt l) l :=
  List.perm_insertionSort _ l

theorem sortInt_sorted (l : List ℤ) : List.Sorted (· ≤ ·) (sortInt l) :=
  List.sorted_insertionSort (fun a b : ℤ => a ≤ b) l

theorem sortInt_eq_of_sorted {l : List ℤ} (hsl : List.Sorted (· ≤ ·) l)
    {l' : List ℤ} (hp : List.Perm l' l) (hsl' : List.Sorted (· ≤ ·) l') : l' = l :=
  List.eq_of_perm_of_sorted hp hsl' hsl

/-- After a first conversion of a raster whose longitude is entirely inside
`(-180, 180)` with some negative value, a second conversion restores a
sorted longitude axis. -/
theorem change_longitude_range_case_neg (r : LonRaster)
    (hs : List.Sorted (· ≤ ·) r.lon)
    (hr : ∀ v ∈ r.lon, -180 < v ∧ v < 180) :
    (change_longitude_range (change_longitude_range r)).lon = r.lon := by
  have hmax : ¬ ((180 : ℤ) : WithBot ℤ) < r.lon.maximum := by
    rw [lt_maximum_iff]
    rintro ⟨v, hv, hlt⟩
    exact absurd (hr v hv).2 (by omega)
  by_cases hmin : r.lon.minimum < ((0 : ℤ) : WithTop ℤ)
  · obtain ⟨v₀, hv₀, hneg⟩ := (minimum_lt_iff r.lon 0).mp hmin
    have h1 : change_longitude_range r = { r with lon := sortInt (r.lon.map wrapNeg) } := by
      rw [change_longitude_range, if_neg hmax, if_pos hmin]
    rw [h1]
    set l₁ : List ℤ := sortInt (r.lon.map wrapNeg) with hl₁
    have hmem : wrapNeg v₀ ∈ l₁ := by
      rw [hl₁]
      exact ((sortInt_perm _).mem_iff).mpr (List.mem_map_of_mem wrapNeg hv₀)
    have hmax1 : ((180 : ℤ) : WithBot ℤ) < l₁.maximum := by
      rw [lt_maximum_iff]
      exact ⟨wrapNeg v₀, hmem, wrapNeg_gt_180 (hr v₀ hv₀).1 hneg⟩
    have h2 : change_longitude_range { r with lon := l₁ } =
        { r with lon := sortInt (l₁.map pyMap180) } := by
      rw [change_longitude_range, if_pos hmax1]
    rw [h2]
    have hperm : List.Perm (sortInt (l₁.map pyMap180)) r.lon := by
      have p1 : List.Perm (l₁.map pyMap180) ((r.lon.map wrapNeg).map pyMap180) :=
        (sortInt_perm _).map pyMap180
      have p2 : (r.lon.map wrapNeg).map pyMap180 = r.lon := by
        rw [List.map_map]
        have hc := List.map_congr_left (l := r.lon)
          (f := pyMap180 ∘ wrapNeg) (g := id)
          (fun v hv => pyMap180_wrapNeg_id (hr v hv).1 (hr v hv).2)
        rw [hc, List.map_id]
      exact ((sortInt_perm _).trans p1).trans (by rw [p2])
    exact sortInt_eq_of_sorted hs hperm (sortInt_sorted _)
  · have h1 : change_longitude_range r = r := by
      rw [change_longitude_range, if_neg hmax, if_neg hmin]
    rw [h1, h1]

/-- After a first conversion of a raster whose longitude is entirely inside
`[0, 360)` with some value above `180`, a second conversion restores a
sorted longitude axis. -/
theorem change_longitude_range_case_pos (r : LonRaster)
    (hs : List.Sorted (· ≤ ·) r.lon)
    (hr : ∀ v ∈ r.lon, 0 ≤ v ∧ v < 360) :
    (change_longitude_range (change_longitude_range r)).lon = r.lon := by
  by_cases hmax : ((180 : ℤ) : WithBot ℤ) < r.lon.maximum
  · obtain ⟨v₀, hv₀, h180⟩ := (lt_maximum_iff r.lon 180).mp hmax
    have h1 : change_longitude_range r = { r with lon := sortInt (r.lon.map pyMap180) } := by
      rw [change_longitude_range, if_pos hmax]
    rw [h1]
    set l₁ : List ℤ := sortInt (r.lon.map pyMap180) with hl₁
    have hmem_char : ∀ w ∈ l₁, ∃ v ∈ r.lon, w = pyMap180 v := by
      intro w hw
      have hw' : w ∈ r.lon.map pyMap180 := ((sortInt_perm _).mem_iff).mp hw
      obtain ⟨v, hv, hveq⟩ := List.mem_map.mp hw'
      exact ⟨v, hv, hveq.symm⟩
    have hmax1 : ¬ ((180 : ℤ) : WithBot ℤ) < l₁.maximum := by
      rw [lt_maximum_iff]
      rintro ⟨w, hw, hlt⟩
      obtain ⟨v, hv, hveq⟩ := hmem_char w hw
      have := pyMap180_lt_180 (hr v hv).1 (hr v hv).2
      omega
    have hmin1 : l₁.minimum < ((0 : ℤ) : WithTop ℤ) := by
      rw [minimum_lt_iff]
      refine ⟨pyMap180 v₀, ?_, pyMap180_neg h180 (hr v₀ hv₀).2⟩
      exact ((sortInt_perm _).mem_iff).mpr (List.mem_map_of_mem pyMap180 hv₀)
    have h2 : change_longitude_range { r with lon := l₁ } =
        { r with lon := sortInt (l₁.map wrapNeg) } := by
      rw [change_longitude_range, if_neg hmax1, if_pos hmin1]
    rw [h2]
    have hperm : List.Perm (sortInt (l₁.map wrapNeg)) r.lon := by
      have p1 : List.Perm (l₁.map wrapNeg) ((r.lon.map pyMap180).map wrapNeg) :=
        (sortInt_perm _).map wrapNeg
      have p2 : (r.lon.map pyMap180).map wrapNeg = r.lon := by
        rw [List.map_map]
        have hc := List.map_congr_left (l := r.lon)
          (f := wrapNeg ∘ pyMap180) (g := id)
          (fun v hv => wrapNeg_pyMap180_id (hr v hv).1 (hr v hv).2)
        rw [hc, List.map_id]
      exact ((sortInt_perm _).trans p1).trans (by rw [p2])
    exact sortInt_eq_of_sorted hs hperm (sortInt_sorted _)
  · have hmin : ¬ r.lon.minimum < ((0 : ℤ) : WithTop ℤ) := by
      rw [minimum_lt_iff]
      rintro ⟨v, hv, hlt⟩
      exact absurd (hr v hv).1 (by omega)
    have h1 : change_longitude_range r = r := by
      rw [change_longitude_range, if_neg hmax, if_neg hmin]
    rw [h1, h1]

/-- C9 (amended): if the longitude axis is sorted ascending and lies
entirely inside `(-180, 180)` or entirely inside `[0, 360)`, applying
`change_longitude_range` twice returns the original longitude
coordinate values; and for longitude entirely within `[0, 180]` a
single application is a no-op returning the raster unchanged. -/
theorem change_longitude_range_roundtrip (r : LonRaster) :
    (List.Sorted (· ≤ ·) r.lon →
      ((∀ v ∈ r.lon, -180 < v ∧ v < 180) ∨ (∀ v ∈ r.lon, 0 ≤ v ∧ v < 360)) →
      (change_longitude_range (change_longitude_range r)).lon = r.lon)
  ∧ ((∀ v ∈ r.lon, 0 ≤ v ∧ v ≤ 180) → change_longitude_range r = r) := by
  constructor
  · intro hs hr
    cases hr with
    | inl h => exact change_longitude_range_case_neg r hs h
    | inr h => exact change_longitude_range_case_pos r hs h
  · intro hb
    have hmax : ¬ ((180 : ℤ) : WithBot ℤ) < r.lon.maximum := by
      rw [lt_maximum_iff]
      rintro ⟨v, hv, hlt⟩
      exact absurd (hb v hv).2 (by omega)
    have hmin : ¬ r.lon.minimum < ((0 : ℤ) : WithTop ℤ) := by
      rw [minimum_lt_iff]
      rintro ⟨v, hv, hlt⟩
      exact absurd (hb v hv).1 (by omega)
    rw [change_longitude_range, if_neg hmax, if_neg hmin]

/-- C9 witness: the round trip at lon `[0, 200]` (range `[0, 360)`) and the
no-op at lon `[5, 120]`, with all hypotheses checked concretely. -/
theorem change_longitude_range_roundtrip_witness :
    (change_longitude_range (change_longitude_range ⟨[0, 200], [1, 2]⟩)).lon = [0, 200]
  ∧ change_longitude_range ⟨[5, 120], [3, 4]⟩ = ⟨[5, 120], [3, 4]⟩ :=
  ⟨(change_longitude_range_roundtrip ⟨[0, 200], [1, 2]⟩).1 (by decide)
      (Or.inr (by decide)),
   (change_longitude_range_roundtrip ⟨[5, 120], [3, 4]⟩).2 (by decide)⟩

/-- C9 counterexample: the claim as stated fails on lon `[-180, 0]`, which
lies in the canonical range `[-180, 180)`.  The first application maps
`-180` to `180` and sorts; the second application finds `lon_max = 180`
(not `> 180`) and `lon_min = 0` (not `< 0`) and leaves `[0, 180]`
unchanged, so the original coordinates are not restored. -/
theorem change_longitude_range_roundtrip_cex :
    (change_longitude_range (change_longitude_range ⟨[-180, 0], [1, 2]⟩)).lon = [0, 180]
  ∧ (change_longitude_range (change_longitude_range ⟨[-180, 0], [1, 2]⟩)).lon ≠ [-180, 0] := by
  decide

/-- C1: evaluated at the spec's own scenario `lon = [5, 120, 199, 360]`
(cell values `[10, 20, 30, 40]` along the axis), the code produces the
expected sorted coordinates `[-161, 0, 5, 120]` but leaves the data in
its original positional order: the cell now labelled `-161` still holds
`10` (the value that belonged to `lon = 5`), whereas moving values with
their coordinates would give `[30, 40, 10, 20]`.  The conversion is a
relabel, not a reorder. -/
theorem change_longitude_range_relabel_bug :
    change_longitude_range ⟨[5, 120, 199, 360], [10, 20, 30, 40]⟩ =
      ⟨[-161, 0, 5, 120], [10, 20, 30, 40]⟩
  ∧ (change_longitude_range ⟨[5, 120, 199, 360], [10, 20, 30, 40]⟩).vals ≠ [30, 40, 10, 20] := by
  decide

/-! ## Coordinate inversion (`AatRasterMixin.invert_coordinates`)

`GridRaster` shows the two spatial axes: `lat` / `lon` are the
coordinate sequences and `data` holds one row per latitude, one column
per longitude.  `_check_coords_inverted` reads the first and last entry
of each index (an exception on an empty axis is modelled by `none`).
`reindex` with the reversed (duplicate-free) coordinate labels reorders
the data together with its labels, i.e. reverses the axis. -/

structure GridRaster where
  lat : List ℤ
  lon : List ℤ
  data : List (List ℤ)
deriving DecidableEq, Repr

/-- Embedding of `AatRasterMixin._check_coords_inverted`:
`return lon[0] > lon[-1], lat[0] < lat[-1]`. -/
def check_coords_inverted (r : GridRaster) : Option (Bool × Bool) :=
  match r.lon.head?, r.lon.getLast?, r.lat.head?, r.lat.getLast? with
  | some l0, some l1, some a0, some a1 => some (decide (l1 < l0), decide (a0 < a1))
  | _, _, _, _ => none

/-- The reindexing built from `inv_dict`: reverse the longitude axis
(and each data row) when the first flag is set, then the latitude axis
(and the row order) when the second flag is set. -/
def applyFlips (r : GridRaster) (p : Bool × Bool) : GridRaster :=
  let r1 := if p.1 then { r with lon := r.lon.reverse, data := r.data.map List.reverse } else r
  if p.2 then { r1 with lat := r1.lat.reverse, data := r1.data.reverse } else r1

/-- Embedding of `AatRasterMixin.invert_coordinates` in copy mode
(`inplace=False`): the reindexed copy is returned. -/
def invert_coordinates (r : GridRaster) : Option GridRaster :=
  (check_coords_inverted r).map (applyFlips r)

/-- Embedding of `AatRasterMixin.invert_coordinates` in in-place mode
(`inplace=True`): the state of the *caller's* raster after the call.
The source rebinds its local name (`data_obj = data_obj.reindex(...)`)
to a fresh object returned by `reindex` and then returns `None`; no
statement ever mutates the caller's object, so the caller's raster is
exactly what it was (the inversion check still runs first and raises on
an empty axis, hence the `Option`). -/
def invert_coordinates_inplace (r : GridRaster) : Option GridRaster :=
  (check_coords_inverted r).map (fun _ => r)

theorem applyFlips_lon (r : GridRaster) (p : Bool × Bool) :
    (applyFlips r p).lon = if p.1 then r.lon.reverse else r.lon := by
  rcases p with ⟨li, ai⟩
  cases li <;> cases ai <;> simp [applyFlips]

theorem applyFlips_lat (r : GridRaster) (p : Bool × Bool) :
    (applyFlips r p).lat = if p.2 then r.lat.reverse else r.lat := by
  rcases p with ⟨li, ai⟩
  cases li <;> cases ai <;> simp [applyFlips]

theorem check_eval (s : GridRaster) {l0 l1 a0 a1 : ℤ}
    (hl0 : s.lon.head? = some l0) (hl1 : s.lon.getLast? = some l1)
    (ha0 : s.lat.head? = some a0) (ha1 : s.lat.getLast? = some a1) :
    check_coords_inverted s = some (decide (l1 < l0), decide (a0 < a1)) := by
  unfold check_coords_inverted
  rw [hl0, hl1, ha0, ha1]

theorem check_applyFlips (r : GridRaster) {l0 l1 a0 a1 : ℤ}
    (hl0 : r.lon.head? = some l0) (hl1 : r.lon.getLast? = some l1)
    (ha0 : r.lat.head? = some a0) (ha1 : r.lat.getLast? = some a1) :
    check_coords_inverted (applyFlips r (decide (l1 < l0), decide (a0 < a1))) =
      some (false, false) := by
  by_cases hlo : l1 < l0 <;> by_cases hla : a0 < a1
  · rw [decide_eq_true hlo, decide_eq_true hla]
    have hlon : (applyFlips r (true, true)).lon = r.lon.reverse := by simp [applyFlips]
    have hlat : (applyFlips r (true, true)).lat = r.lat.reverse := by simp [applyFlips]
    rw [check_eval (applyFlips r (true, true))
        (by rw [hlon, List.head?_reverse, hl1]) (by rw [hlon, List.getLast?_reverse, hl0])
        (by rw [hlat, List.head?_reverse, ha1]) (by rw [hlat, List.getLast?_reverse, ha0]),
      decide_eq_false (lt_asymm hlo), decide_eq_false (lt_asymm hla)]
  · rw [decide_eq_true hlo, decide_eq_false hla]
    have hlon : (applyFlips r (true, false)).lon = r.lon.reverse := by simp [applyFlips]
    have hlat : (applyFlips r (true, false)).lat = r.lat := by simp [applyFlips]
    rw [check_eval (applyFlips r (true, false))
        (by rw [hlon, List.head?_reverse, hl1]) (by rw [hlon, List.getLast?_reverse, hl0])
        (by rw [hlat, ha0]) (by rw [hlat, ha1]),
      decide_eq_false (lt_asymm hlo), decide_eq_false hla]
  · rw [decide_eq_false hlo, decide_eq_true hla]
    have hlon : (applyFlips r (false, true)).lon = r.lon := by simp [applyFlips]
    have hlat : (applyFlips r (false, true)).lat = r.lat.reverse := by simp [applyFlips]
    rw [check_eval (applyFlips r (false, true))
        (by rw [hlon, hl0]) (by rw [hlon, hl1])
        (by rw [hlat, List.head?_reverse, ha1]) (by rw [hlat, List.getLast?_reverse, ha0]),
      decide_eq_false hlo, decide_eq_false (lt_asymm hla)]
  · rw [decide_eq_false hlo, decide_eq_false hla]
    have heq : applyFlips r (false, false) = r := by simp [applyFlips]
    rw [heq, check_eval r hl0 hl1 ha0 ha1, decide_eq_false hlo, decide_eq_false hla]

/-- C8: `invert_coordinates` is idempotent and self-correcting.  A raster
whose inversion check already reports canonical order (latitude
descending, longitude ascending, by the first/last comparison) is
returned unchanged; and whatever raster one application returns, that
result checks as canonical and a second application returns it
unchanged (values travel with their coordinates on each reversed axis
by construction of the reindex). -/
theorem invert_coordinates_self_inverse (r : GridRaster) :
    (check_coords_inverted r = some (false, false) → invert_coordinates r = some r)
  ∧ ∀ r', invert_coordinates r = some r' →
      check_coords_inverted r' = some (false, false) ∧ invert_coordinates r' = some r' := by
  have hcanon : ∀ s : GridRaster, check_coords_inverted s = some (false, false) →
      invert_coordinates s = some s := by
    intro s hs
    rw [invert_coordinates, hs]
    simp [applyFlips]
  refine ⟨hcanon r, ?_⟩
  intro r' h'
  rw [invert_coordinates, Option.map_eq_some'] at h'
  obtain ⟨p, hchk, hf⟩ := h'
  have hdec : ∃ l0 l1 a0 a1, r.lon.head? = some l0 ∧ r.lon.getLast? = some l1 ∧
      r.lat.head? = some a0 ∧ r.lat.getLast? = some a1 ∧
      p = (decide (l1 < l0), decide (a0 < a1)) := by
    cases hl0 : r.lon.head? with
    | none =>
      have hnone : check_coords_inverted r = none := by
        unfold check_coords_inverted
        rw [hl0]
      rw [hnone] at hchk
      exact Option.noConfusion hchk
    | some l0 =>
      cases hl1 : r.lon.getLast? with
      | none =>
        have hnone : check_coords_inverted r = none := by
          unfold check_coords_inverted
          rw [hl0, hl1]
        rw [hnone] at hchk
        exact Option.noConfusion hchk
      | some l1 =>
        cases ha0 : r.lat.head? with
        | none =>
          have hnone : check_coords_inverted r = none := by
            unfold check_coords_inverted
            rw [hl0, hl1, ha0]
          rw [hnone] at hchk
          exact Option.noConfusion hchk
        | some a0 =>
          cases ha1 : r.lat.getLast? with
          | none =>
            have hnone : check_coords_inverted r = none := by
              unfold check_coords_inverted
              rw [hl0, hl1, ha0, ha1]
            rw [hnone] at hchk
            exact Option.noConfusion hchk
          | some a1 =>
            rw [check_eval r hl0 hl1 ha0 ha1] at hchk
            exact ⟨l0, l1, a0, a1, rfl, rfl, rfl, rfl, (Option.some.inj hchk).symm⟩
  obtain ⟨l0, l1, a0, a1, hl0, hl1, ha0, ha1, hp⟩ := hdec
  subst hp
  subst hf
  have hchk' := check_applyFlips r hl0 hl1 ha0 ha1
  exact ⟨hchk', hcanon _ hchk'⟩

/-- C8 witness: a canonical raster is returned unchanged, and the result
of inverting a longitude-inverted raster is canonical and fixed by a
second application. -/
theorem invert_coordinates_self_inverse_witness :
    invert_coordinates ⟨[90, 89], [67, 68], [[1, 2], [3, 4]]⟩ =
      some ⟨[90, 89], [67, 68], [[1, 2], [3, 4]]⟩
  ∧ check_coords_inverted ⟨[90, 89], [69, 70], [[2, 1], [4, 3]]⟩ = some (false, false)
  ∧ invert_coordinates ⟨[90, 89], [69, 70], [[2, 1], [4, 3]]⟩ =
      some ⟨[90, 89], [69, 70], [[2, 1], [4, 3]]⟩ :=
  ⟨(invert_coordinates_self_inverse ⟨[90, 89], [67, 68], [[1, 2], [3, 4]]⟩).1 (by decide),
   ((invert_coordinates_self_inverse ⟨[90, 89], [70, 69], [[1, 2], [3, 4]]⟩).2
      ⟨[90, 89], [69, 70], [[2, 1], [4, 3]]⟩ (by decide)).1,
   ((invert_coordinates_self_inverse ⟨[90, 89], [70, 69], [[1, 2], [3, 4]]⟩).2
      ⟨[90, 89], [69, 70], [[2, 1], [4, 3]]⟩ (by decide)).2⟩

/-- C3: on the docstring's own inverted raster (`lat = [90,89,88,87]`,
`lon = [70,69,68,67]`), the in-place call leaves the caller's raster
bit-for-bit unchanged — afterwards the inversion check still reports
the longitude as inverted, contradicting both the claim and the
source's `inplace` docstring ("will overwrite existing data array"):
`reindex` returns a new object, the local rebinding is discarded and
`None` is returned. -/
theorem invert_coordinates_inplace_bug :
    invert_coordinates_inplace
        ⟨[90, 89, 88, 87], [70, 69, 68, 67],
          [[0, 1, 2, 3], [4, 5, 6, 7], [8, 9, 10, 11], [12, 13, 14, 15]]⟩ =
      some ⟨[90, 89, 88, 87], [70, 69, 68, 67],
          [[0, 1, 2, 3], [4, 5, 6, 7], [8, 9, 10, 11], [12, 13, 14, 15]]⟩
  ∧ check_coords_inverted
        ⟨[90, 89, 88, 87], [70, 69, 68, 67],
          [[0, 1, 2, 3], [4, 5, 6, 7], [8, 9, 10, 11], [12, 13, 14, 15]]⟩ =
      some (true, false) := by
  decide

/-! ## Calendar correction (`AatRasterMixin.correct_calendar`)

The embedding works on the attribute dictionary of the raster's
(identified) time coordinate; only the `calendar` and `units` keys are
ever read or written by the source, so the record keeps exactly those
two (each `none` when the key is absent). -/

structure TimeAttrs where
  calendar : Option String
  units : Option String
deriving DecidableEq, Repr

/-- Python's `needle in hay` substring test, on the character lists of
the two strings. -/
def strHasSub (needle hay : List Char) : Bool :=
  (List.range (hay.length + 1)).any (fun i => needle.isPrefixOf (hay.drop i))

/-- The source's second guard:
`"units" in attrs and "months since" in attrs["units"]`. -/
def unitsHasMonthsSince (a : TimeAttrs) : Bool :=
  match a.units with
  | some u => strHasSub ("months since".toList) u.toList
  | none => false

/-- Embedding of `AatRasterMixin.correct_calendar`: first guard
`"calendar" in attrs and attrs["calendar"] == "360"`, second guard on
`units`, else no change. -/
def correct_calendar (a : TimeAttrs) : TimeAttrs :=
  if a.calendar = some ("360") then { a with calendar := some ("360_day") }
  else if unitsHasMonthsSince a then { a with calendar := some ("360_day") }
  else a

/-- C7: `correct_calendar` follows exactly three mutually exclusive rules
evaluated in order: `calendar = "360"` is rewritten to `"360_day"`;
otherwise a `units` containing `"months since"` sets
`calendar = "360_day"`; otherwise the attributes are left entirely
unchanged (and no error is raised — the function is total). -/
theorem correct_calendar_rules (a : TimeAttrs) :
    (a.calendar = some ("360") →
      correct_calendar a = { a with calendar := some ("360_day") })
  ∧ (a.calendar ≠ some ("360") → unitsHasMonthsSince a = true →
      correct_calendar a = { a with calendar := some ("360_day") })
  ∧ (a.calendar ≠ some ("360") → unitsHasMonthsSince a = false →
      correct_calendar a = a) := by
  refine ⟨fun h => ?_, fun h hU => ?_, fun h hU => ?_⟩
  · rw [correct_calendar, if_pos h]
  · rw [correct_calendar, if_neg h, if_pos hU]
  · rw [correct_calendar, if_neg h, if_neg (by simp [hU])]

/-- C7 witness: the three rules at the spec's concrete examples —
`calendar="360"` is rewritten, `units="months since 1960-01-01"` adds
the calendar, anything else is untouched. -/
theorem correct_calendar_rules_witness :
    correct_calendar ⟨some ("360"), none⟩ = ⟨some ("360_day"), none⟩
  ∧ correct_calendar ⟨none, some ("months since 1960-01-01")⟩ =
      ⟨some ("360_day"), some ("months since 1960-01-01")⟩
  ∧ correct_calendar ⟨some ("standard"), some ("days since 1900-01-01")⟩ =
      ⟨some ("standard"), some ("days since 1900-01-01")⟩ :=
  ⟨(correct_calendar_rules ⟨some ("360"), none⟩).1 rfl,
   (correct_calendar_rules ⟨none, some ("months since 1960-01-01")⟩).2.1
      (by decide) (by decide),
   (correct_calendar_rules ⟨some ("standard"), some ("days since 1900-01-01")⟩).2.2
      (by decide) (by decide)⟩

/-! ## Default time-dimension inference (`AatRasterMixin.__init__`)

    self._t_dim = None
    for t in ["t", "T", "time"]:
        if t in self._obj.dims:
            self._t_dim = t

The loop keeps overwriting, so the *last* matching name wins. -/

/-- Embedding of the `__init__` loop inferring the default time
dimension from the raster's dimension names. -/
def inferTimeDim (dims : List String) : Option String :=
  (["t", "T", "time"]).foldl (fun acc t => if dims.contains t then some t else acc) none

/-- C10: the default time dimension is the last of `t`, `T`, `time`
present among the dimension names: `time` beats `T` beats `t`, and the
result is `none` when none of the three occurs. -/
theorem inferTimeDim_priority (dims : List String) :
    (("time" : String) ∈ dims → inferTimeDim dims = some ("time"))
  ∧ (("time" : String) ∉ dims → ("T" : String) ∈ dims →
      inferTimeDim dims = some ("T"))
  ∧ (("time" : String) ∉ dims → ("T" : String) ∉ dims →
      ("t" : String) ∈ dims → inferTimeDim dims = some ("t"))
  ∧ (("time" : String) ∉ dims → ("T" : String) ∉ dims →
      ("t" : String) ∉ dims → inferTimeDim dims = none) := by
  refine ⟨fun h1 => ?_, fun h1 h2 => ?_, fun h1 h2 h3 => ?_, fun h1 h2 h3 => ?_⟩
  · simp [inferTimeDim, h1]
  · simp [inferTimeDim, h1, h2]
  · simp [inferTimeDim, h1, h2, h3]
  · simp [inferTimeDim, h1, h2, h3]

/-- C10 witness: a raster with dimensions `["t", "T", "time", "lat"]`
infers `time`; with `["t", "T"]` infers `T`; with `["t"]` infers `t`. -/
theorem inferTimeDim_priority_witness :
    inferTimeDim ["t", "T", "time", "lat"] = some ("time")
  ∧ inferTimeDim ["lon", "t", "T"] = some ("T")
  ∧ inferTimeDim ["t", "lat"] = some ("t") :=
  ⟨(inferTimeDim_priority ["t", "T", "time", "lat"]).1 (by decide),
   (inferTimeDim_priority ["lon", "t", "T"]).2.1 (by decide) (by decide),
   (inferTimeDim_priority ["t", "lat"]).2.2.1 (by decide) (by decide) (by decide)⟩

/-! ## Ensemble assembly (`_read_in_ensemble_and_perturbed_datasets`)

A member-indexed dataset is a list of `(member label, field)` pairs,
where the field value of type `α` stands for the whole hypercube over
the non-member dimensions (control and perturbed subsets sharing `α`
models their agreement on all non-member dimensions/coordinates).
`xr.combine_by_coords` concatenates the subsets along the member
coordinate in ascending coordinate order
(`combine_attrs="drop_conflicts"` only affects metadata attributes,
which carry no data and are elided). -/

/-- Sorting of member-labelled fields by member coordinate, as
`combine_by_coords` orders concatenated datasets. -/
def memberSort {α : Type} (l : List (ℤ × α)) : List (ℤ × α) :=
  List.insertionSort (fun p q => p.1 ≤ q.1) l

/-- `xr.combine_by_coords([ds1, ds2], combine_attrs="drop_conflicts")`
restricted to two datasets split along the member coordinate. -/
def combine_by_coords {α : Type} (ds1 ds2 : List (ℤ × α)) : List (ℤ × α) :=
  memberSort (ds1 ++ ds2)

/-- `ds.expand_dims(dim="number")` on the control subset: its scalar
member coordinate `c` becomes a member dimension of length 1. -/
def expand_dims {α : Type} (c : ℤ) (v : α) : List (ℤ × α) := [(c, v)]

/-- Embedding of `_read_in_ensemble_and_perturbed_datasets` after the
two GRIB reads: the control subset (scalar member coordinate `c`,
field `cf`) is expanded and combined with the perturbed subset `pf`. -/
def read_in_ensemble_and_perturbed {α : Type} (c : ℤ) (cf : α)
    (pf : List (ℤ × α)) : List (ℤ × α) :=
  combine_by_coords (expand_dims c cf) pf

/-- C4: when the control member carries label `0` and every perturbed
member a positive label (the GRIB convention: control is member 0,
perturbed are 1..K), the assembled ensemble has exactly `K + 1` members
and member `0` is exactly the control field. -/
theorem read_in_ensemble_control_first {α : Type} (cf : α) (pf : List (ℤ × α))
    (h : ∀ p ∈ pf, 0 < p.1) :
    (read_in_ensemble_and_perturbed 0 cf pf).length = pf.length + 1
  ∧ (read_in_ensemble_and_perturbed 0 cf pf).head? = some (0, cf)
  ∧ (read_in_ensemble_and_perturbed 0 cf pf).lookup 0 = some cf := by
  have hcons : read_in_ensemble_and_perturbed 0 cf pf =
      (0, cf) :: List.insertionSort (fun p q : ℤ × α => p.1 ≤ q.1) pf := by
    show List.insertionSort (fun p q : ℤ × α => p.1 ≤ q.1) ((0, cf) :: pf) =
      (0, cf) :: List.insertionSort (fun p q : ℤ × α => p.1 ≤ q.1) pf
    rw [List.insertionSort]
    rcases hys : List.insertionSort (fun p q : ℤ × α => p.1 ≤ q.1) pf with _ | ⟨y, ts⟩
    · rfl
    · have hy : y ∈ pf := (List.perm_insertionSort _ pf).mem_iff.mp
        (by rw [hys]; exact List.mem_cons_self y ts)
      have h0y : ((0 : ℤ), cf).1 ≤ y.1 := le_of_lt (h y hy)
      rw [List.orderedInsert, if_pos h0y]
  rw [hcons]
  refine ⟨?_, rfl, ?_⟩
  · have hlen : (List.insertionSort (fun p q : ℤ × α => p.1 ≤ q.1) pf).length = pf.length :=
      List.length_insertionSort (fun p q : ℤ × α => p.1 ≤ q.1) pf
    simp [hlen]
  · simp [List.lookup]

/-- C4 witness: a control field `100` with two perturbed members
`[(1, 7), (2, 8)]` assembles to three members with member 0 equal to
the control field. -/
theorem read_in_ensemble_control_first_witness :
    (read_in_ensemble_and_perturbed 0 (100 : ℤ) [(1, 7), (2, 8)]).length = 3
  ∧ (read_in_ensemble_and_perturbed 0 (100 : ℤ) [(1, 7), (2, 8)]).head? = some (0, 100)
  ∧ (read_in_ensemble_and_perturbed 0 (100 : ℤ) [(1, 7), (2, 8)]).lookup 0 = some 100 :=
  ⟨(read_in_ensemble_control_first (100 : ℤ) [(1, 7), (2, 8)] (by decide)).1,
   (read_in_ensemble_control_first (100 : ℤ) [(1, 7), (2, 8)] (by decide)).2.1,
   (read_in_ensemble_control_first (100 : ℤ) [(1, 7), (2, 8)] (by decide)).2.2⟩

/-! ## Zonal statistics (`AatRasterArray.compute_raster_statistics`)

The raster is `StatRaster`: a CRS flag, the spatial extent
(`nlat × nlon`), and the cell data — either a single 2-D grid
(`RData.d2`, rows indexed by latitude, columns by longitude) or one
grid per remaining non-spatial coordinate (`RData.d3`, e.g. a time or
ensemble axis; the pairing fixes the slice count to the coordinate
count).  A cell is `Option ℚ` with `none` for NaN/missing.  A region
geometry is abstracted to the list of grid positions whose cells the
`rio.clip` call would keep (`all_touched` only changes which positions
a polygon produces, which the abstraction absorbs); `clip` raises
`NoDataInBounds` exactly when no position falls inside the raster.
`pd.concat(df_list)` raises `ValueError` when `df_list` is empty, and
`grid_stat_all[0]` raises `IndexError` when both `stats_list` and
`percentile_list` produce nothing; both are modelled in `RErr`.  The
second component of a successful result collects the features for
which `logger.warning` fired (skipped features). -/

abbrev Cell := Option ℚ

inductive RData where
  | d2 (grid : List (List Cell))
  | d3 (slices : List (ℤ × List (List Cell)))
deriving DecidableEq

structure StatRaster where
  hasCRS : Bool
  nlat : ℕ
  nlon : ℕ
  rdata : RData
deriving DecidableEq

abbrev Geometry := List (ℕ × ℕ)

inductive RErr where
  | missingCRS
  | indexError
  | valueError
deriving DecidableEq

/-- One row of the output dataframe: the remaining non-spatial
coordinate (from `reset_index()`, absent in the pure 2-D case), one
column per statistic, and the feature-identifier column appended by
`df_adm[feature_col] = feature`. -/
structure StatRow where
  extraCoord : Option ℤ
  cols : List (String × Cell)
  feature : ℤ
deriving DecidableEq

/-- Value of a grid at a position (missing when out of the stored
rows/columns). -/
def cellAt (grid : List (List Cell)) (p : ℕ × ℕ) : Cell :=
  ((grid.get? p.1).bind (fun row => row.get? p.2)).join

/-- The grid positions kept by `rio.clip`: those of the geometry lying
inside the raster extent. -/
def clipSelect (r : StatRaster) (g : Geometry) : List (ℕ × ℕ) :=
  g.filter (fun p => p.1 < r.nlat && p.2 < r.nlon)

/-- `gdf[gdf[feature_col] == feature][geom_col]`: the union of the
geometries of all rows carrying this feature value. -/
def featureGeom (gdf : List (ℤ × Geometry)) (f : ℤ) : Geometry :=
  ((gdf.filter (fun row => decide (row.1 = f))).map (fun row => row.2)).flatten

/-- The clipped window of one 2-D grid: the cells at the selected
positions (cells outside the geometry are dropped from the
reduction). -/
def windowCells (grid : List (List Cell)) (sel : List (ℕ × ℕ)) : List Cell :=
  sel.map (cellAt grid)

def meanQ (vs : List ℚ) : ℚ := vs.sum / (vs.length : ℚ)

/-- The source's `std` (xarray default `ddof=0`) is the square root of
this variance; `ℚ` has no square root, so the embedding records the
variance.  A window yields a missing `std` in the source exactly when
it yields a missing value here, and no claim examined in this
development depends on the magnitude. -/
def varQ (vs : List ℚ) : ℚ := ((vs.map (fun v => (v - meanQ vs) ^ 2)).sum) / (vs.length : ℚ)

/-- `getattr(da_clip, stat)(dim=[x, y], **kwargs)` reduced over the two
spatial dimensions of one window, with the source's kwargs: `count`
never receives `skipna` (it always ignores NaN), every other statistic
gets `skipna=True`, and `sum` additionally `min_count=1`, which makes a
sum over an all-missing window NaN instead of 0.  Statistic names other
than the six the repository uses are outside the embedding's scope and
map to a missing value. -/
def reduceStat (stat : String) (window : List Cell) : Cell :=
  let vs := window.filterMap id
  if stat = ("count") then some ((vs.length : ℚ))
  else if vs = [] then none
  else if stat = ("sum") then some vs.sum
  else if stat = ("mean") then some (meanQ vs)
  else if stat = ("max") then vs.max?
  else if stat = ("min") then vs.min?
  else if stat = ("std") then some (varQ vs)
  else none

def sortQ (l : List ℚ) : List ℚ := List.insertionSort (fun a b => a ≤ b) l

/-- `da_clip.quantile(quant / 100, dim=[x, y])`: numpy's default linear
interpolation on the sorted non-missing values, NaN on an all-missing
window (default `skipna`). -/
def quantileRed (q : ℕ) (window : List Cell) : Cell :=
  let vs := sortQ (window.filterMap id)
  if vs = [] then none
  else
    let n := vs.length
    let pos : ℚ := (q : ℚ) * ((n : ℚ) - 1) / 100
    let i : ℕ := (Int.floor pos).toNat
    let lo := vs.getD i 0
    let hi := vs.getD (min (i + 1) (n - 1)) 0
    some (lo + (pos - (i : ℚ)) * (hi - lo))

/-- One entry of `grid_stat_all`: a reduced statistic, scalar for a 2-D
raster, one value per remaining coordinate otherwise, renamed to
`f"{stat}_{feature_col}"`. -/
inductive StatResult where
  | scalar (name : String) (v : Cell)
  | vector (name : String) (vs : List (ℤ × Cell))
deriving DecidableEq

def srName : StatResult → String
  | .scalar n _ => n
  | .vector n _ => n

def srScalar : StatResult → Cell
  | .scalar _ v => v
  | .vector _ vs => ((vs.get? 0).map Prod.snd).getD none

def srValAt (k : ℕ) : StatResult → Cell
  | .scalar _ v => v
  | .vector _ vs => ((vs.get? k).map Prod.snd).getD none

def mkStat (rd : RData) (sel : List (ℕ × ℕ)) (stat : String) (fcol : String) : StatResult :=
  match rd with
  | .d2 grid => .scalar (stat ++ "_" ++ fcol) (reduceStat stat (windowCells grid sel))
  | .d3 slices => .vector (stat ++ "_" ++ fcol)
      (slices.map (fun sl => (sl.1, reduceStat stat (windowCells sl.2 sel))))

def mkQuant (rd : RData) (sel : List (ℕ × ℕ)) (q : ℕ) (fcol : String) : StatResult :=
  match rd with
  | .d2 grid => .scalar (toString q ++ "quant_" ++ fcol) (quantileRed q (windowCells grid sel))
  | .d3 slices => .vector (toString q ++ "quant_" ++ fcol)
      (slices.map (fun sl => (sl.1, quantileRed q (windowCells sl.2 sel))))

/-- `grid_stat_all` for one feature: the requested statistics followed
by the requested percentiles (when `percentile_list is not None`). -/
def statResultsOf (rd : RData) (sel : List (ℕ × ℕ)) (statsL : List String)
    (pcts : Option (List ℕ)) (fcol : String) : List StatResult :=
  statsL.map (fun s => mkStat rd sel s fcol) ++
    (pcts.getD []).map (fun q => mkQuant rd sel q fcol)

/-- `df_adm` for one feature: `grid_stat_all[0].dims` decides the path —
scalar statistics give the single bypass row, otherwise
`xr.merge(...).to_dataframe().reset_index()` gives one row per
remaining coordinate (all results share that coordinate, so alignment
is positional). -/
def blockRows (f : ℤ) (srs : List StatResult) : List StatRow :=
  match srs with
  | [] => []
  | first :: _ =>
    match first with
    | .scalar _ _ => [⟨none, srs.map (fun sr => (srName sr, srScalar sr)), f⟩]
    | .vector _ vs =>
        vs.enum.map (fun ke => ⟨some ke.2.1, srs.map (fun sr => (srName sr, srValAt ke.1 sr)), f⟩)

/-- The per-feature body of the loop: clip (skip the feature on
`NoDataInBounds`, i.e. when no cell overlaps), build `grid_stat_all`
(`grid_stat_all[0]` raises `IndexError` when it is empty), and
assemble the feature's row block. -/
def processFeature (r : StatRaster) (gdf : List (ℤ × Geometry)) (fcol : String)
    (statsL : List String) (pcts : Option (List ℕ)) (f : ℤ) :
    Except RErr (Option (List StatRow)) :=
  let sel := clipSelect r (featureGeom gdf f)
  if sel = [] then Except.ok none
  else
    let srs := statResultsOf r.rdata sel statsL pcts fcol
    if srs = [] then Except.error RErr.indexError
    else Except.ok (some (blockRows f srs))

/-- The loop over `gdf[feature_col].unique()`: collects the per-feature
blocks (`df_list`) and the features for which the skip warning was
logged. -/
def goFeatures (r : StatRaster) (gdf : List (ℤ × Geometry)) (fcol : String)
    (statsL : List String) (pcts : Option (List ℕ)) :
    List ℤ → Except RErr (List (List StatRow) × List ℤ)
  | [] => Except.ok ([], [])
  | f :: fs =>
    match processFeature r gdf fcol statsL pcts f with
    | Except.error e => Except.error e
    | Except.ok none =>
      match goFeatures r gdf fcol statsL pcts fs with
      | Except.error e => Except.error e
      | Except.ok (bs, ws) => Except.ok (bs, f :: ws)
    | Except.ok (some b) =>
      match goFeatures r gdf fcol statsL pcts fs with
      | Except.error e => Except.error e
      | Except.ok (bs, ws) => Except.ok (b :: bs, ws)

/-- `pandas.Series.unique`: distinct values in first-occurrence order. -/
def uniqueAux (seen : List ℤ) : List ℤ → List ℤ
  | [] => []
  | x :: xs => if x ∈ seen then uniqueAux seen xs else x :: uniqueAux (x :: seen) xs

def uniqueFeats (l : List ℤ) : List ℤ := uniqueAux [] l

/-- The default `stats_list` installed when the argument is `None`. -/
def defaultStats : List String := ["mean", "std", "min", "max", "sum", "count"]

/-- Embedding of `AatRasterArray.compute_raster_statistics`: CRS check,
per-feature loop, and the final `pd.concat(df_list).reset_index(drop=True)`
(which raises `ValueError` on an empty `df_list`).  A successful result
carries the concatenated rows and the list of skipped (warned)
features. -/
def compute_raster_statistics (r : StatRaster) (gdf : List (ℤ × Geometry)) (fcol : String)
    (stats_list : Option (List String)) (percentile_list : Option (List ℕ)) :
    Except RErr (List StatRow × List ℤ) :=
  if r.hasCRS = false then Except.error RErr.missingCRS
  else
    match goFeatures r gdf fcol (stats_list.getD defaultStats) percentile_list
        (uniqueFeats (gdf.map (fun row => row.1))) with
    | Except.error e => Except.error e
    | Except.ok (blocks, ws) =>
      if blocks = [] then Except.error RErr.valueError
      else Except.ok (blocks.flatten, ws)

/-- Whether a feature's clip keeps at least one cell. -/
def overlaps (r : StatRaster) (gdf : List (ℤ × Geometry)) (f : ℤ) : Bool :=
  decide (clipSelect r (featureGeom gdf f) ≠ [])

/-- Rows one overlapping feature contributes: 1 for a 2-D raster, the
size of the remaining non-spatial coordinate otherwise. -/
def rowsPerRD (rd : RData) : ℕ :=
  match rd with
  | .d2 _ => 1
  | .d3 slices => slices.length

/-- The block of rows an overlapping feature contributes. -/
def featureBlock (r : StatRaster) (gdf : List (ℤ × Geometry)) (fcol : String)
    (statsL : List String) (pcts : Option (List ℕ)) (f : ℤ) : List StatRow :=
  blockRows f (statResultsOf r.rdata (clipSelect r (featureGeom gdf f)) statsL pcts fcol)

theorem statResultsOf_ne_nil (rd : RData) (sel : List (ℕ × ℕ)) {statsL : List String}
    (pcts : Option (List ℕ)) (fcol : String) (h : statsL ≠ []) :
    statResultsOf rd sel statsL pcts fcol ≠ [] := by
  cases statsL with
  | nil => exact absurd rfl h
  | cons s rest => simp [statResultsOf]

theorem blockRows_length (f : ℤ) (rd : RData) (sel : List (ℕ × ℕ)) {statsL : List String}
    (pcts : Option (List ℕ)) (fcol : String) (h : statsL ≠ []) :
    (blockRows f (statResultsOf rd sel statsL pcts fcol)).length = rowsPerRD rd := by
  cases statsL with
  | nil => exact absurd rfl h
  | cons s rest =>
    cases rd with
    | d2 grid => simp [statResultsOf, mkStat, blockRows, rowsPerRD]
    | d3 slices => simp [statResultsOf, mkStat, blockRows, rowsPerRD]

theorem blockRows_feature (f : ℤ) (srs : List StatResult) :
    ∀ row ∈ blockRows f srs, row.feature = f := by
  intro row hrow
  cases srs with
  | nil => simp [blockRows] at hrow
  | cons first rest =>
    cases first with
    | scalar n v =>
      simp [blockRows] at hrow
      rw [hrow]
    | vector n vs =>
      simp [blockRows] at hrow
      obtain ⟨k, e, hrow⟩ := hrow
      obtain ⟨hmem, hrec⟩ := hrow
      rw [← hrec]

theorem goFeatures_spec (r : StatRaster) (gdf : List (ℤ × Geometry)) (fcol : String)
    (statsL : List String) (pcts : Option (List ℕ)) (hne : statsL ≠ []) :
    ∀ fs : List ℤ,
      goFeatures r gdf fcol statsL pcts fs =
        Except.ok
          ((fs.filter (fun f => overlaps r gdf f)).map (featureBlock r gdf fcol statsL pcts),
           fs.filter (fun f => !(overlaps r gdf f))) := by
  intro fs
  induction fs with
  | nil => rfl
  | cons f fs ih =>
    by_cases hf : clipSelect r (featureGeom gdf f) = []
    · have hpf : processFeature r gdf fcol statsL pcts f = Except.ok none := by
        simp only [processFeature]
        rw [if_pos hf]
      have hov : overlaps r gdf f = false := by simp [overlaps, hf]
      simp only [goFeatures, hpf, ih, List.filter_cons, hov]
      simp
    · have hpf : processFeature r gdf fcol statsL pcts f =
          Except.ok (some (featureBlock r gdf fcol statsL pcts f)) := by
        simp only [processFeature, featureBlock]
        rw [if_neg hf, if_neg (statResultsOf_ne_nil r.rdata _ pcts fcol hne)]
      have hov : overlaps r gdf f = true := by simp [overlaps, hf]
      simp only [goFeatures, hpf, ih, List.filter_cons, hov]
      simp

theorem flatten_length_const {β : Type} (L : List (List β)) (c : ℕ)
    (h : ∀ b ∈ L, b.length = c) : L.flatten.length = L.length * c := by
  induction L with
  | nil => simp
  | cons b bs ih =>
    have hb := h b (List.mem_cons_self b bs)
    have ih' := ih (fun x hx => h x (List.mem_cons_of_mem b hx))
    simp [hb, ih', Nat.succ_mul, Nat.add_comm]

theorem flatten_map_comm {β γ : Type} (g : β → γ) (L : List (List β)) :
    L.flatten.map g = (L.map (fun b => b.map g)).flatten := by
  induction L with
  | nil => rfl
  | cons b bs ih => simp [ih]

theorem featureBlock_feature_map (r : StatRaster) (gdf : List (ℤ × Geometry)) (fcol : String)
    {statsL : List String} (pcts : Option (List ℕ)) (f : ℤ) (hne : statsL ≠ []) :
    (featureBlock r gdf fcol statsL pcts f).map (fun row => row.feature) =
      List.replicate (rowsPerRD r.rdata) f := by
  have hlen : (featureBlock r gdf fcol statsL pcts f).length = rowsPerRD r.rdata :=
    blockRows_length f r.rdata _ pcts fcol hne
  refine List.eq_replicate_iff.mpr ⟨by simp [hlen], ?_⟩
  intro b hb
  obtain ⟨row, hrow, hbe⟩ := List.mem_map.mp hb
  rw [← hbe]
  exact blockRows_feature f _ row hrow

/-- C5: with a CRS set, a nonempty (or defaulted) statistics list and at
least one overlapping feature, `compute_raster_statistics` succeeds; a
feature with zero overlapping cells appears in the warned list and
contributes no row, every overlapping distinct feature contributes its
block, and the total row count is (number of overlapping distinct
features) × (1 for a 2-D raster, the non-spatial coordinate count
otherwise); the rows' feature column lists each overlapping feature
exactly that many times. -/
theorem compute_raster_statistics_rows (r : StatRaster) (gdf : List (ℤ × Geometry))
    (fcol : String) (stats_list : Option (List String)) (pcts : Option (List ℕ))
    (hcrs : r.hasCRS = true)
    (hne : stats_list.getD defaultStats ≠ [])
    (hover : ∃ f ∈ uniqueFeats (gdf.map (fun row => row.1)), overlaps r gdf f = true) :
    (compute_raster_statistics r gdf fcol stats_list pcts).map
        (fun out => (out.1.length, out.1.map (fun row => row.feature), out.2)) =
      Except.ok
        ((((uniqueFeats (gdf.map (fun row => row.1))).filter
              (fun f => overlaps r gdf f)).length * rowsPerRD r.rdata,
          (((uniqueFeats (gdf.map (fun row => row.1))).filter
              (fun f => overlaps r gdf f)).map
                (fun f => List.replicate (rowsPerRD r.rdata) f)).flatten,
          (uniqueFeats (gdf.map (fun row => row.1))).filter (fun f => !(overlaps r gdf f)))) := by
  have hgo := goFeatures_spec r gdf fcol (stats_list.getD defaultStats) pcts hne
      (uniqueFeats (gdf.map (fun row => row.1)))
  have hfilter_ne : (uniqueFeats (gdf.map (fun row => row.1))).filter
      (fun f => overlaps r gdf f) ≠ [] := by
    obtain ⟨f0, hf0, hov0⟩ := hover
    intro hc
    have hmem : f0 ∈ (uniqueFeats (gdf.map (fun row => row.1))).filter
        (fun f => overlaps r gdf f) := List.mem_filter.mpr ⟨hf0, hov0⟩
    rw [hc] at hmem
    exact absurd hmem (List.not_mem_nil f0)
  have hblocks_ne : ((uniqueFeats (gdf.map (fun row => row.1))).filter
      (fun f => overlaps r gdf f)).map
        (featureBlock r gdf fcol (stats_list.getD defaultStats) pcts) ≠ [] := by
    intro hc
    exact hfilter_ne (List.map_eq_nil_iff.mp hc)
  rw [compute_raster_statistics, if_neg (by simp [hcrs]), hgo]
  simp only []
  rw [if_neg hblocks_ne]
  have hblen : ∀ b ∈ ((uniqueFeats (gdf.map (fun row => row.1))).filter
      (fun f => overlaps r gdf f)).map
        (featureBlock r gdf fcol (stats_list.getD defaultStats) pcts),
      b.length = rowsPerRD r.rdata := by
    intro b hb
    obtain ⟨f, hf, hbe⟩ := List.mem_map.mp hb
    rw [← hbe]
    exact blockRows_length f r.rdata _ pcts fcol hne
  have hlen := flatten_length_const _ (rowsPerRD r.rdata) hblen
  rw [List.length_map] at hlen
  have hfeat : (((uniqueFeats (gdf.map (fun row => row.1))).filter
      (fun f => overlaps r gdf f)).map
        (featureBlock r gdf fcol (stats_list.getD defaultStats) pcts)).flatten.map
          (fun row => row.feature) =
      (((uniqueFeats (gdf.map (fun row => row.1))).filter
          (fun f => overlaps r gdf f)).map
            (fun f => List.replicate (rowsPerRD r.rdata) f)).flatten := by
    rw [flatten_map_comm, List.map_map]
    congr 1
    exact List.map_congr_left
      (fun f hf => featureBlock_feature_map r gdf fcol pcts f hne)
  simp only [Except.map, hlen, hfeat]

/-- C5 witness: a 2×2 raster with CRS and three distinct features — two
overlapping, one without any overlapping cell — yields exactly two rows
(features 1 and 3), and the skipped feature 2 is warned. -/
theorem compute_raster_statistics_rows_witness :
    (compute_raster_statistics ⟨true, 2, 2, RData.d2 [[some 1, some 2], [some 3, some 4]]⟩
        [(1, [(0, 0)]), (2, [(9, 9)]), (3, [(1, 1)])] ("adm") none none).map
        (fun out => (out.1.length, out.1.map (fun row => row.feature), out.2)) =
      Except.ok ((2, [1, 3], [2])) := by
  have h := compute_raster_statistics_rows
    ⟨true, 2, 2, RData.d2 [[some 1, some 2], [some 3, some 4]]⟩
    [(1, [(0, 0)]), (2, [(9, 9)]), (3, [(1, 1)])] ("adm") none none
    rfl (by decide) (by decide)
  exact h.trans (congrArg Except.ok (by decide))

theorem goFeatures_all_skipped (r : StatRaster) (gdf : List (ℤ × Geometry)) (fcol : String)
    (statsL : List String) (pcts : Option (List ℕ)) :
    ∀ fs : List ℤ, (∀ f ∈ fs, clipSelect r (featureGeom gdf f) = []) →
      goFeatures r gdf fcol statsL pcts fs = Except.ok ([], fs) := by
  intro fs
  induction fs with
  | nil => intro _; rfl
  | cons f fs ih =>
    intro h
    have hpf : processFeature r gdf fcol statsL pcts f = Except.ok none := by
      simp only [processFeature]
      rw [if_pos (h f (List.mem_cons_self f fs))]
    simp only [goFeatures, hpf, ih (fun x hx => h x (List.mem_cons_of_mem f hx))]

/-- C2 (amended): when the raster has a CRS but every distinct feature's
clip keeps no cell, every feature is skipped, `df_list` stays empty and
the final `pd.concat(df_list)` raises `ValueError` — the function
raises instead of returning an empty zero-row result. -/
theorem compute_raster_statistics_all_skipped (r : StatRaster) (gdf : List (ℤ × Geometry))
    (fcol : String) (stats_list : Option (List String)) (pcts : Option (List ℕ))
    (hcrs : r.hasCRS = true)
    (hskip : ∀ f ∈ uniqueFeats (gdf.map (fun row => row.1)),
      clipSelect r (featureGeom gdf f) = []) :
    compute_raster_statistics r gdf fcol stats_list pcts = Except.error RErr.valueError := by
  rw [compute_raster_statistics, if_neg (by simp [hcrs]),
    goFeatures_all_skipped r gdf fcol _ pcts _ hskip]
  rfl

/-- C2 counterexample: a CRS-carrying 2×2 raster and a single feature
whose geometry overlaps no cell.  The claim expects a zero-row result
and no error; the code raises `ValueError` (from `pd.concat` on the
empty `df_list`). -/
theorem compute_raster_statistics_all_skipped_cex :
    compute_raster_statistics ⟨true, 2, 2, RData.d2 [[some 1, some 2], [some 3, some 4]]⟩
        [(7, [(5, 5)])] ("adm") none none = Except.error RErr.valueError
  ∧ compute_raster_statistics ⟨true, 2, 2, RData.d2 [[some 1, some 2], [some 3, some 4]]⟩
        [(7, [(5, 5)])] ("adm") none none ≠ Except.ok ([], []) := by
  have h1 : compute_raster_statistics ⟨true, 2, 2, RData.d2 [[some 1, some 2], [some 3, some 4]]⟩
      [(7, [(5, 5)])] ("adm") none none = Except.error RErr.valueError := rfl
  exact ⟨h1, fun hc => Except.noConfusion (h1.symm.trans hc)⟩

/-- C2 witness: two features, both without overlap, on a CRS-carrying
raster: the amended behaviour (a `ValueError`) at a concrete input. -/
theorem compute_raster_statistics_all_skipped_witness :
    compute_raster_statistics ⟨true, 3, 3, RData.d2 [[some 1]]⟩
        [(4, [(7, 7)]), (5, [])] ("adm") none none = Except.error RErr.valueError :=
  compute_raster_statistics_all_skipped ⟨true, 3, 3, RData.d2 [[some 1]]⟩
    [(4, [(7, 7)]), (5, [])] ("adm") none none rfl (by decide)

theorem reduceStat_sum_all_missing (window : List Cell) (h : ∀ c ∈ window, c = none) :
    reduceStat ("sum") window = none := by
  have hvs : window.filterMap id = [] := by
    rw [List.filterMap_eq_nil_iff]
    intro c hc
    exact h c hc
  simp only [reduceStat]
  rw [hvs, if_neg (by decide), if_pos rfl]

/-- C6: on a 2-D raster with CRS, a feature whose clipped window is
nonempty but entirely missing gets a `sum` column equal to the missing
marker (not zero) — `min_count=1` makes the sum over non-missing values
NaN when there are none; and in general the embedded `sum` reduction of
any all-missing window is the missing value. -/
theorem compute_raster_statistics_sum_missing (grid : List (List Cell)) (nlat nlon : ℕ)
    (g : Geometry) (f : ℤ) (fcol : String)
    (hov : clipSelect ⟨true, nlat, nlon, RData.d2 grid⟩ g ≠ [])
    (hmiss : ∀ p ∈ clipSelect ⟨true, nlat, nlon, RData.d2 grid⟩ g, cellAt grid p = none) :
    compute_raster_statistics ⟨true, nlat, nlon, RData.d2 grid⟩ [(f, g)] fcol
        (some ["sum"]) none =
      Except.ok ([⟨none, [("sum" ++ "_" ++ fcol, none)], f⟩], [])
  ∧ reduceStat ("sum")
      (windowCells grid (clipSelect ⟨true, nlat, nlon, RData.d2 grid⟩ g)) = none := by
  have hred : reduceStat ("sum")
      (windowCells grid (clipSelect ⟨true, nlat, nlon, RData.d2 grid⟩ g)) = none := by
    apply reduceStat_sum_all_missing
    intro c hc
    obtain ⟨p, hp, hpc⟩ := List.mem_map.mp hc
    rw [← hpc]
    exact hmiss p hp
  refine ⟨?_, hred⟩
  have hfg : featureGeom [(f, g)] f = g := by simp [featureGeom]
  have huf : uniqueFeats ([(f, g)].map (fun row => row.1)) = [f] := by
    simp [uniqueFeats, uniqueAux]
  have hsrs : statResultsOf (RData.d2 grid)
      (clipSelect ⟨true, nlat, nlon, RData.d2 grid⟩ g) ["sum"] none fcol =
      [StatResult.scalar ("sum" ++ "_" ++ fcol) none] := by
    simp [statResultsOf, mkStat, hred]
  have hpf : processFeature ⟨true, nlat, nlon, RData.d2 grid⟩ [(f, g)] fcol ["sum"] none f =
      Except.ok (some [⟨none, [("sum" ++ "_" ++ fcol, none)], f⟩]) := by
    simp only [processFeature, hfg]
    rw [if_neg hov, hsrs]
    simp [blockRows, srName, srScalar]
  rw [compute_raster_statistics, if_neg (by simp), huf]
  simp only [Option.getD_some, goFeatures, hpf]
  rfl

/-- C6 witness: a 1×1 raster holding one missing cell, one feature
covering it, `stats_list = ["sum"]`: the single output row's sum column
is the missing marker. -/
theorem compute_raster_statistics_sum_missing_witness :
    compute_raster_statistics ⟨true, 1, 1, RData.d2 [[none]]⟩ [(3, [(0, 0)])] ("adm")
        (some ["sum"]) none =
      Except.ok ([⟨none, [("sum_adm", none)], 3⟩], []) :=
  (compute_raster_statistics_sum_missing [[none]] 1 1 [(0, 0)] 3 ("adm")
    (by decide) (by decide)).1
